import Mathlib

/-!
Verification of the swagger middleware for Fiber v3 (`swagger.go`).

The middleware is a single handler closure produced by `New(config...)`.
We embed it shallowly:

* the per-request context is a `Request` record carrying the pieces of the
  Fiber context the handler reads: the mounted route's path template
  (`c.Route().Path`), the `X-Forwarded-Prefix` header (`c.Get` returns `""`
  when the header is absent, and the code only tests emptiness, so a plain
  `String` with `""` for "absent or empty" is faithful), and the trailing
  wildcard segment `p = c.Path(c.Params("*"))`;
* the response written to the context is a `Response` record (status,
  content type, `Location` header, body); a per-request `error` return is
  the `Except.error` side of `Except String Response`;
* the `sync.Once`-guarded closure state (`prefix`, and the lazily filled
  `cfg.URL`) is threaded explicitly: `Option InitState`, `none` before the
  first request;
* the external spec registry (`swag.ReadDoc`) is a parameter
  `readDoc : String → Except String String`;
* Go's `path.Join` / `path.Clean` (standard library, purely lexical) are
  reimplemented functionally below as `pathJoin` / `pathClean`.
-/

/-- `defaultDocURL` constant of `swagger.go`. -/
def defaultDocURL : String := "doc.json"

/-- `defaultIndex` constant of `swagger.go`. -/
def defaultIndex : String := "index.html"

/-- Modelled from the spec: the `Config` struct is not under `src/`; the spec
describes it as holding a document URL override (`URL`, empty when not
configured) and the instance/document name used as the registry lookup key
(`InstanceName`). The UI layout options do not influence the handler's
control flow and are omitted. -/
structure Config where
  URL : String
  InstanceName : String
deriving DecidableEq, Repr

/-- The pieces of the Fiber request context read by the handler:
route path template, `X-Forwarded-Prefix` header value (`""` when absent),
and the trailing wildcard segment `p`. -/
structure Request where
  routePath : String
  xForwardedPrefix : String
  wildcard : String
deriving DecidableEq, Repr

/-- The observable response written to the Fiber context: status code,
`Content-Type`, optional `Location` header, body. -/
structure Response where
  status : Nat
  contentType : String
  location : Option String
  body : String
deriving DecidableEq, Repr

deriving instance DecidableEq for Except

/-- `strings.ReplaceAll(s, "*", "")`: every occurrence of the single-byte
pattern `"*"` is replaced by the empty string, i.e. all `'*'` characters
are removed. -/
def removeStars (s : String) : String :=
  String.mk (s.data.filter (fun c => c ≠ '*'))

/-- The loop of `getForwardedPrefix`, acting on the reversed character list:
`endIndex` starts at `len(header)` and is decremented while
`endIndex > 1 && header[endIndex-1] == '/'`; equivalently, trailing `'/'`
characters are dropped as long as at least one character remains. -/
def dropTrailingSlashes : List Char → List Char
  | [] => []
  | c :: rest => if c = '/' ∧ rest ≠ [] then dropTrailingSlashes rest else c :: rest

/-- `getForwardedPrefix` of `swagger.go`: empty header contributes nothing;
otherwise the header value with `header[:endIndex]` taken, where the loop
strips trailing slashes but never below index 1. (`'/'` is a single ASCII
byte, so the byte-level loop agrees with the character-level one.) -/
def getForwardedPrefix (header : String) : String :=
  if header.length = 0 then ""
  else String.mk (dropTrailingSlashes header.data.reverse).reverse

/-- Split a character list on `'/'` (the path-element decomposition used by
Go's lexical `path.Clean`). -/
def splitSlash : List Char → List Char → List String
  | [], acc => [String.mk acc.reverse]
  | c :: rest, acc =>
    if c = '/' then String.mk acc.reverse :: splitSlash rest []
    else splitSlash rest (c :: acc)

/-- One step of `path.Clean`'s element processing, with the output held as a
reversed stack of elements: empty and `"."` elements are dropped; `".."`
pops the last real element, is dropped at the root of a rooted path, and is
kept when nothing can be popped in a relative path; anything else is
appended. This is the purely lexical algorithm of Go's `path.Clean`. -/
def cleanStep (rooted : Bool) (stack : List String) (e : String) : List String :=
  if e = "" ∨ e = "." then stack
  else if e = ".." then
    match stack with
    | [] => if rooted then [] else [".."]
    | top :: rest => if top = ".." then e :: stack else rest
  else e :: stack

/-- `rooted := path[0] == '/'` in Go's `path.Clean`. -/
def rootedPath (p : String) : Bool :=
  match p.data with
  | '/' :: _ => true
  | _ => false

/-- Go's `path.Clean`: returns the shortest lexically equivalent path,
`"."` for the empty result. -/
def pathClean (p : String) : String :=
  if p = "" then "."
  else
    let rooted := rootedPath p
    let elems := splitSlash p.data []
    let stack := elems.foldl (cleanStep rooted) []
    let out := (if rooted then "/" else "") ++ String.intercalate "/" stack.reverse
    if out = "" then "." else out

/-- Go's `path.Join` on two elements: empty elements are ignored, the rest
are joined with `"/"` and the result cleaned; all elements empty gives
`""`. -/
def pathJoin (a b : String) : String :=
  if a = "" ∧ b = "" then ""
  else if a = "" then pathClean b
  else pathClean (a ++ "/" ++ b)

/-- The `sync.Once`-guarded closure state: the computed `prefix` (named
`pfx` here) and the effective `cfg.URL` after the lazy default fill-in. -/
structure InitState where
  pfx : String
  url : String
deriving DecidableEq, Repr

/-- The body of `once.Do` in `New`: strip the wildcard markers from the
route path, prepend the non-empty forwarded prefix, and default `cfg.URL`
to `path.Join(prefix, defaultDocURL)` when it was left empty. -/
def onceInit (cfg : Config) (req : Request) : InitState :=
  let pfx0 := removeStars req.routePath
  let fwd := getForwardedPrefix req.xForwardedPrefix
  let pfx := if fwd ≠ "" then fwd ++ pfx0 else pfx0
  let url := if cfg.URL.length = 0 then pathJoin pfx defaultDocURL else cfg.URL
  InitState.mk pfx url

/-- Modelled from the spec: the compiled index template (`indexTmpl` is not
under `src/`) renders the UI page by substituting the configuration values;
in particular the rendered body embeds the configured document URL as the
URL the UI fetches. -/
def renderIndex (cfg : Config) : String :=
  "<html><body><div id=\"swagger-ui\"></div><script>SwaggerUIBundle(url: \""
    ++ cfg.URL ++ "\")</script></body></html>"

/-- `c.Type("html"); index.Execute(c, cfg)`: HTML content type, status 200
(the Fiber default), rendered body. -/
def htmlResponse (body : String) : Response :=
  Response.mk 200 "text/html" none body

/-- `c.Type("json").SendString(doc)`: JSON content type, status 200. -/
def jsonResponse (body : String) : Response :=
  Response.mk 200 "application/json" none body

/-- `c.Set("Location", loc); c.Status(301).Send(nil)`: permanent redirect
with empty body (`fiber.StatusMovedPermanently = 301`). -/
def redirectResponse (loc : String) : Response :=
  Response.mk 301 "" (some loc) ""

/-- `c.SendStatus(fiber.StatusNotFound)`: status 404; Fiber fills the empty
body with the status message. -/
def notFoundResponse : Response :=
  Response.mk 404 "" none "Not Found"

/-- The handler closure returned by `New`, as one state-passing step:
run the `once.Do` body if the state is still uninitialized, then dispatch
on the trailing wildcard segment `p` exactly as the `switch` in
`swagger.go` does. Returns the response (or propagated error) and the
closure state after the request. -/
def handleRequest (cfg : Config) (readDoc : String → Except String String)
    (st : Option InitState) (req : Request) : Except String Response × InitState :=
  let s := match st with
    | some s => s
    | none => onceInit cfg req
  let p := req.wildcard
  let resp : Except String Response :=
    if p = defaultIndex then
      Except.ok (htmlResponse (renderIndex (Config.mk s.url cfg.InstanceName)))
    else if p = defaultDocURL then
      match readDoc cfg.InstanceName with
      | Except.error e => Except.error e
      | Except.ok doc => Except.ok (jsonResponse doc)
    else if p = "" ∨ p = "/" then
      Except.ok (redirectResponse (pathJoin s.pfx defaultIndex))
    else
      Except.ok notFoundResponse
  (resp, s)

/-- A sequence of requests against one handler instance, threading the
closure state. -/
def runRequests (cfg : Config) (readDoc : String → Except String String) :
    Option InitState → List Request → List (Except String Response) × Option InitState
  | st, [] => ([], st)
  | st, r :: rs =>
    let step := handleRequest cfg readDoc st r
    let rest := runRequests cfg readDoc (some step.2) rs
    (step.1 :: rest.1, rest.2)

/-! ### Helper lemmas -/

lemma data_nil_imp_empty (s : String) (h : s.data = []) : s = "" := by
  cases s with
  | mk d => simp at h; subst h; rfl

lemma ne_empty_imp_data_ne_nil (s : String) (h : s ≠ "") : s.data ≠ [] := by
  intro hd
  exact h (data_nil_imp_empty s hd)

lemma length_ne_zero_of_ne_empty (s : String) (h : s ≠ "") : ¬ s.length = 0 := by
  intro hl
  have hd : s.data = [] := List.length_eq_zero.mp hl
  exact h (data_nil_imp_empty s hd)

lemma dropTrailingSlashes_cons (c : Char) (rest : List Char) :
    dropTrailingSlashes (c :: rest) =
      if c = '/' ∧ rest ≠ [] then dropTrailingSlashes rest else c :: rest := rfl

lemma dropTrailingSlashes_ne_nil (l : List Char) (h : l ≠ []) :
    dropTrailingSlashes l ≠ [] := by
  induction l with
  | nil => exact absurd rfl h
  | cons c rest ih =>
    rw [dropTrailingSlashes_cons]
    by_cases hc : c = '/' ∧ rest ≠ []
    · rw [if_pos hc]; exact ih hc.2
    · rw [if_neg hc]; simp

lemma dropTrailingSlashes_all_slash (l : List Char) (hne : l ≠ [])
    (hall : ∀ c ∈ l, c = '/') : dropTrailingSlashes l = ['/'] := by
  induction l with
  | nil => exact absurd rfl hne
  | cons c rest ih =>
    have hc : c = '/' := hall c (List.mem_cons_self c rest)
    subst hc
    rw [dropTrailingSlashes_cons]
    by_cases hr : rest = []
    · subst hr; simp
    · rw [if_pos ⟨rfl, hr⟩]
      exact ih hr (fun d hd => hall d (List.mem_cons_of_mem _ hd))

lemma dropTrailingSlashes_eq_dropWhile (l : List Char)
    (h : ∃ c ∈ l, c ≠ '/') :
    dropTrailingSlashes l = l.dropWhile (fun c => c = '/') := by
  induction l with
  | nil => simp at h
  | cons c rest ih =>
    rw [dropTrailingSlashes_cons]
    by_cases hc : c = '/'
    · subst hc
      obtain ⟨d, hd, hdne⟩ := h
      have hdrest : d ∈ rest := by
        rcases List.mem_cons.mp hd with h1 | h1
        · exact absurd h1 hdne
        · exact h1
      have hr : rest ≠ [] := List.ne_nil_of_mem hdrest
      rw [if_pos ⟨rfl, hr⟩, List.dropWhile_cons]
      simp only [decide_eq_true_eq, if_pos rfl]
      rw [ih ⟨d, hdrest, hdne⟩]
      simp
    · rw [if_neg (fun hand => hc hand.1), List.dropWhile_cons]
      simp [hc]

/-- Modelled from the spec: the forwarded-prefix normalization as the spec
words it — an absent or empty header contributes nothing; otherwise all
trailing `/` characters are stripped, except that the first character is
never removed, so a header consisting only of slashes yields `"/"`. -/
def specForwardedStrip (header : String) : String :=
  if header = "" then ""
  else if header.data.all (fun c => c = '/') then "/"
  else String.mk (header.data.reverse.dropWhile (fun c => c = '/')).reverse

lemma gfp_eq_spec (header : String) :
    getForwardedPrefix header = specForwardedStrip header := by
  by_cases h0 : header = ""
  · subst h0; rfl
  · have hdata : header.data ≠ [] := ne_empty_imp_data_ne_nil header h0
    have hlen : ¬ header.length = 0 := length_ne_zero_of_ne_empty header h0
    have hrev : header.data.reverse ≠ [] := by
      intro hr
      exact hdata (List.reverse_eq_nil_iff.mp hr)
    rw [getForwardedPrefix, specForwardedStrip, if_neg hlen, if_neg h0]
    by_cases hall : ∀ c ∈ header.data, c = '/'
    · have hd : dropTrailingSlashes header.data.reverse = ['/'] :=
        dropTrailingSlashes_all_slash _ hrev
          (fun c hc => hall c (List.mem_reverse.mp hc))
      have hallb : header.data.all (fun c => c = '/') = true := by
        rw [List.all_eq_true]
        intro c hc
        exact decide_eq_true (hall c hc)
      rw [if_pos hallb, hd]
      rfl
    · push_neg at hall
      obtain ⟨c, hc, hcne⟩ := hall
      have hallb : ¬ header.data.all (fun c => c = '/') = true := by
        simp only [List.all_eq_true, decide_eq_true_eq]
        push_neg
        exact ⟨c, hc, hcne⟩
      have hd := dropTrailingSlashes_eq_dropWhile header.data.reverse
        ⟨c, List.mem_reverse.mpr hc, hcne⟩
      rw [if_neg hallb, hd]

lemma gfp_ne_empty (header : String) (h : header ≠ "") :
    getForwardedPrefix header ≠ "" := by
  have hdata : header.data ≠ [] := ne_empty_imp_data_ne_nil header h
  have hlen : ¬ header.length = 0 := length_ne_zero_of_ne_empty header h
  rw [getForwardedPrefix, if_neg hlen]
  intro he
  have hrev : header.data.reverse ≠ [] := by
    intro hr
    exact hdata (List.reverse_eq_nil_iff.mp hr)
  have hne := dropTrailingSlashes_ne_nil header.data.reverse hrev
  have hd : (dropTrailingSlashes header.data.reverse).reverse = [] := by
    have := congrArg String.data he
    simpa using this
  exact hne (List.reverse_eq_nil_iff.mp hd)

/-! ### Claim theorems -/

/-- C5: `getForwardedPrefix` returns the empty string when the
`X-Forwarded-Prefix` header is absent or empty; otherwise it returns the
header value with all trailing `'/'` characters stripped, except that the
first character is never removed (a header of only slashes yields `"/"`). -/
theorem c5_forwarded_strip (header : String) :
    getForwardedPrefix header = specForwardedStrip header :=
  gfp_eq_spec header

/-- C4: on the first request, the effective prefix equals the route path
template with every `'*'` removed, and, when the `X-Forwarded-Prefix`
header is present and non-empty, the trailing-slash-stripped header value
concatenated in front of that route-derived prefix. -/
theorem c4_first_request_prefix (cfg : Config)
    (readDoc : String → Except String String) (req : Request) :
    ((handleRequest cfg readDoc none req).2).pfx =
      if req.xForwardedPrefix = "" then removeStars req.routePath
      else specForwardedStrip req.xForwardedPrefix ++ removeStars req.routePath := by
  have hst : (handleRequest cfg readDoc none req).2 = onceInit cfg req := rfl
  rw [hst]
  by_cases hh : req.xForwardedPrefix = ""
  · rw [if_pos hh]
    show (onceInit cfg req).pfx = _
    unfold onceInit
    rw [hh]
    simp [getForwardedPrefix]
  · rw [if_neg hh]
    unfold onceInit
    have hne := gfp_ne_empty _ hh
    simp only [if_pos hne, ne_eq, hne, not_false_eq_true, if_true]
    rw [gfp_eq_spec]

/-- C3: if no explicit document URL was configured, then after the first
request the configured document URL equals the path join of the computed
prefix and `"doc.json"`. -/
theorem c3_default_doc_url (cfg : Config)
    (readDoc : String → Except String String) (req : Request)
    (h : cfg.URL = "") :
    ((handleRequest cfg readDoc none req).2).url =
      pathJoin ((handleRequest cfg readDoc none req).2).pfx defaultDocURL := by
  have hst : (handleRequest cfg readDoc none req).2 = onceInit cfg req := rfl
  rw [hst]
  unfold onceInit
  rw [h]
  simp

/-- Witness for C3 at route `"/docs/*"`, no forwarded header, empty
configured URL. -/
theorem c3_default_doc_url_witness :
    (Config.mk "" "swagger").URL = "" ∧
    ((handleRequest (Config.mk "" "swagger") (fun _ => Except.ok "DOCBODY") none
        (Request.mk "/docs/*" "" "")).2).url =
      pathJoin ((handleRequest (Config.mk "" "swagger") (fun _ => Except.ok "DOCBODY")
        none (Request.mk "/docs/*" "" "")).2).pfx defaultDocURL :=
  ⟨rfl, c3_default_doc_url _ _ _ rfl⟩

/-- C2 (amended): for a bare-path request (trailing wildcard segment `""`
or `"/"`) the handler responds with status 301, an empty body, and a
`Location` header equal to `path.Join(prefix, "index.html")` — the cleaned
join, not the plain concatenation. -/
theorem c2_bare_path_redirect (cfg : Config)
    (readDoc : String → Except String String) (st : Option InitState)
    (req : Request) (h : req.wildcard = "" ∨ req.wildcard = "/") :
    (handleRequest cfg readDoc st req).1 =
      Except.ok (Response.mk 301 ""
        (some (pathJoin ((handleRequest cfg readDoc st req).2).pfx defaultIndex)) "") := by
  rcases h with h | h <;>
    simp [handleRequest, h, defaultIndex, defaultDocURL, redirectResponse]

/-- Witness for C2's amended theorem at route `"/docs/*"`, segment `""`. -/
theorem c2_bare_path_redirect_witness :
    (handleRequest (Config.mk "" "swagger") (fun _ => Except.ok "DOCBODY") none
        (Request.mk "/docs/*" "" "")).1 =
      Except.ok (Response.mk 301 ""
        (some (pathJoin ((handleRequest (Config.mk "" "swagger")
          (fun _ => Except.ok "DOCBODY") none
          (Request.mk "/docs/*" "" "")).2).pfx defaultIndex)) "") :=
  c2_bare_path_redirect _ _ _ _ (Or.inl rfl)

/-- C2 (counterexample): at route `"/docs/*"` the computed prefix is
`"/docs/"`; the handler sets `Location` to `"/docs/index.html"`
(`path.Join`), which differs from the claimed plain concatenation
`prefix + "/index.html" = "/docs//index.html"`. -/
theorem c2_bare_path_redirect_counterexample :
    ((handleRequest (Config.mk "" "swagger") (fun _ => Except.ok "DOCBODY") none
        (Request.mk "/docs/*" "" "")).2).pfx = "/docs/" ∧
    (handleRequest (Config.mk "" "swagger") (fun _ => Except.ok "DOCBODY") none
        (Request.mk "/docs/*" "" "")).1 =
      Except.ok (redirectResponse "/docs/index.html") ∧
    (handleRequest (Config.mk "" "swagger") (fun _ => Except.ok "DOCBODY") none
        (Request.mk "/docs/*" "" "")).1 ≠
      Except.ok (redirectResponse
        (((handleRequest (Config.mk "" "swagger") (fun _ => Except.ok "DOCBODY") none
          (Request.mk "/docs/*" "" "")).2).pfx ++ "/index.html")) := by
  refine ⟨by decide, by decide, by decide⟩

/-- C1 (amended): the handler serves the specification document exactly for
requests whose trailing wildcard segment equals the literal `"doc.json"`
(`defaultDocURL`); the configured document URL plays no role in the
dispatch. -/
theorem c1_doc_path_is_literal (cfg : Config)
    (readDoc : String → Except String String) (st : Option InitState)
    (req : Request) (doc : String) :
    (handleRequest cfg readDoc st req).1 = Except.ok (jsonResponse doc) ↔
      req.wildcard = defaultDocURL ∧ readDoc cfg.InstanceName = Except.ok doc := by
  simp only [handleRequest]
  constructor
  · intro h
    by_cases h1 : req.wildcard = defaultIndex
    · rw [if_pos h1] at h
      simp [htmlResponse, jsonResponse, renderIndex] at h
    · rw [if_neg h1] at h
      by_cases h2 : req.wildcard = defaultDocURL
      · rw [if_pos h2] at h
        refine ⟨h2, ?_⟩
        cases hr : readDoc cfg.InstanceName with
        | error e => rw [hr] at h; simp at h
        | ok d =>
          rw [hr] at h
          simp only [jsonResponse, Except.ok.injEq, Response.mk.injEq] at h
          rw [h.2.2.2]
      · rw [if_neg h2] at h
        by_cases h3 : req.wildcard = "" ∨ req.wildcard = "/"
        · rw [if_pos h3] at h
          simp [redirectResponse, jsonResponse] at h
        · rw [if_neg h3] at h
          simp [notFoundResponse, jsonResponse] at h
  · rintro ⟨h1, h2⟩
    have hne : req.wildcard ≠ defaultIndex := by rw [h1]; decide
    rw [if_neg hne, if_pos h1, h2]

/-- C1 (counterexample): with the configured document URL set to
`"custom.json"` and a request whose trailing wildcard segment equals that
configured value, the handler responds 404 instead of serving the
document — the serving path is the literal `"doc.json"`, not the
configured URL. -/
theorem c1_doc_path_counterexample :
    (Config.mk "custom.json" "swagger").URL =
      (Request.mk "/docs/*" "" "custom.json").wildcard ∧
    (handleRequest (Config.mk "custom.json" "swagger")
        (fun _ => Except.ok "DOCBODY") none
        (Request.mk "/docs/*" "" "custom.json")).1 =
      Except.ok notFoundResponse ∧
    (handleRequest (Config.mk "custom.json" "swagger")
        (fun _ => Except.ok "DOCBODY") none
        (Request.mk "/docs/*" "" "custom.json")).1 ≠
      Except.ok (jsonResponse "DOCBODY") := by
  refine ⟨by decide, by decide, by decide⟩

/-- C6: for a request selecting the document endpoint, a successful
registry lookup for `cfg.InstanceName` is written verbatim with JSON
content type, and a failed lookup is returned as the registry's error
unchanged. -/
theorem c6_doc_lookup (cfg : Config)
    (readDoc : String → Except String String) (st : Option InitState)
    (req : Request) (h : req.wildcard = defaultDocURL) :
    (∀ doc, readDoc cfg.InstanceName = Except.ok doc →
        (handleRequest cfg readDoc st req).1 = Except.ok (jsonResponse doc)) ∧
    (∀ e, readDoc cfg.InstanceName = Except.error e →
        (handleRequest cfg readDoc st req).1 = Except.error e) := by
  constructor <;> intro x hx <;>
    simp [handleRequest, h, hx, defaultIndex, defaultDocURL]

/-- Witness for C6: a registry holding `"DOCBODY"` under the configured
instance name is served verbatim. -/
theorem c6_doc_lookup_witness :
    (handleRequest (Config.mk "" "swagger") (fun _ => Except.ok "DOCBODY") none
        (Request.mk "/docs/*" "" "doc.json")).1 =
      Except.ok (jsonResponse "DOCBODY") :=
  (c6_doc_lookup _ _ _ _ rfl).1 "DOCBODY" rfl

/-- C7: for a request whose trailing wildcard segment is none of
`"index.html"`, `"doc.json"`, `""`, `"/"`, the handler responds with a
not-found status as a normal response (`Except.ok`), not a propagated
error. -/
theorem c7_not_found (cfg : Config)
    (readDoc : String → Except String String) (st : Option InitState)
    (req : Request) (h1 : req.wildcard ≠ defaultIndex)
    (h2 : req.wildcard ≠ defaultDocURL) (h3 : req.wildcard ≠ "")
    (h4 : req.wildcard ≠ "/") :
    (handleRequest cfg readDoc st req).1 = Except.ok notFoundResponse := by
  simp [handleRequest, h1, h2, h3, h4]

/-- Witness for C7 at the unmatched segment `"favicon.ico"`. -/
theorem c7_not_found_witness :
    (handleRequest (Config.mk "" "swagger") (fun _ => Except.ok "DOCBODY") none
        (Request.mk "/docs/*" "" "favicon.ico")).1 =
      Except.ok notFoundResponse :=
  c7_not_found _ _ _ _ (by decide) (by decide) (by decide) (by decide)

lemma renderIndex_contains_url (cfg : Config) :
    cfg.URL.data <:+: (renderIndex cfg).data := by
  refine ⟨("<html><body><div id=\"swagger-ui\"></div><script>SwaggerUIBundle(url: \"").data,
    ("\")</script></body></html>").data, ?_⟩
  simp [renderIndex]

/-- C8: for a request whose trailing wildcard segment is `"index.html"`,
the handler responds with HTML content type and the index template
rendered with the current configuration (whose URL is the effective,
possibly lazily defaulted, document URL), and that body contains the
configured document URL as a substring. -/
theorem c8_index_page (cfg : Config)
    (readDoc : String → Except String String) (st : Option InitState)
    (req : Request) (h : req.wildcard = defaultIndex) :
    (handleRequest cfg readDoc st req).1 =
      Except.ok (htmlResponse (renderIndex (Config.mk
        ((handleRequest cfg readDoc st req).2).url cfg.InstanceName))) ∧
    ((handleRequest cfg readDoc st req).2).url.data <:+:
      (renderIndex (Config.mk
        ((handleRequest cfg readDoc st req).2).url cfg.InstanceName)).data := by
  constructor
  · simp [handleRequest, h]
  · exact renderIndex_contains_url
      (Config.mk ((handleRequest cfg readDoc st req).2).url cfg.InstanceName)

/-- Witness for C8 at route `"/docs/*"` and segment `"index.html"`. -/
theorem c8_index_page_witness :
    (handleRequest (Config.mk "" "swagger") (fun _ => Except.ok "DOCBODY") none
        (Request.mk "/docs/*" "" "index.html")).1 =
      Except.ok (htmlResponse (renderIndex (Config.mk
        ((handleRequest (Config.mk "" "swagger") (fun _ => Except.ok "DOCBODY") none
          (Request.mk "/docs/*" "" "index.html")).2).url "swagger"))) ∧
    ((handleRequest (Config.mk "" "swagger") (fun _ => Except.ok "DOCBODY") none
        (Request.mk "/docs/*" "" "index.html")).2).url.data <:+:
      (renderIndex (Config.mk
        ((handleRequest (Config.mk "" "swagger") (fun _ => Except.ok "DOCBODY") none
          (Request.mk "/docs/*" "" "index.html")).2).url "swagger")).data :=
  c8_index_page (Config.mk "" "swagger") (fun _ => Except.ok "DOCBODY") none
    (Request.mk "/docs/*" "" "index.html") rfl

lemma runRequests_some_state (cfg : Config)
    (readDoc : String → Except String String) (s : InitState)
    (reqs : List Request) :
    (runRequests cfg readDoc (some s) reqs).2 = some s := by
  induction reqs with
  | nil => rfl
  | cons r rs ih => exact ih

/-- C10: once the closure state has been computed by the first request, any
sequence of later requests leaves it unchanged, and the response of a later
request does not depend on that request's route path or
`X-Forwarded-Prefix` header — only on its wildcard segment (and the cached
state). -/
theorem c10_first_request_frame (cfg : Config)
    (readDoc : String → Except String String) (req0 : Request)
    (reqs : List Request) (r1 h1 r2 h2 w : String) :
    (runRequests cfg readDoc
        (some (handleRequest cfg readDoc none req0).2) reqs).2 =
      some (handleRequest cfg readDoc none req0).2 ∧
    handleRequest cfg readDoc (some (handleRequest cfg readDoc none req0).2)
        (Request.mk r1 h1 w) =
      handleRequest cfg readDoc (some (handleRequest cfg readDoc none req0).2)
        (Request.mk r2 h2 w) :=
  ⟨runRequests_some_state _ _ _ _, rfl⟩
